import Mathlib

/-!
Verification development for the erp-chat-poc retrieval-and-arbitration
pipeline.  The definitions below are a shallow embedding of
`src/backend/src/agent/agent.service.ts` (query rewrite fallback, evidence
filter fallback, answer scoring, duel winner selection, response assembly)
and of `rag.service.ts` (`looksLikeIdentifier`, `extractIdentifierTokens`,
`searchHybrid`).  External effects (database queries, embedding and
completion calls) are modelled as oracle functions supplied in an
environment record; the JavaScript regular expressions used by the source
are embedded as hand-rolled scanners whose semantics follow the JS regex
engine (leftmost match, greedy/lazy quantifiers with backtracking, word
boundaries).
-/

namespace ErpChat

/-! ### JavaScript string primitives -/

/-- JS `\s` / `String.prototype.trim` whitespace (the common characters;
rarer Unicode space code points are not modelled). -/
def isSpaceJS (c : Char) : Bool :=
  c == ' ' || c == '\t' || c == '\n' || c == '\r' ||
  c == Char.ofNat 11 || c == Char.ofNat 12 || c == Char.ofNat 0xa0

/-- JS `\w`: `[A-Za-z0-9_]`. -/
def isWordChar (c : Char) : Bool := c.isAlpha || c.isDigit || c == '_'

/-- `[a-z0-9]` under the `/i` flag: ASCII letters and digits. -/
def isAlnumChar (c : Char) : Bool := c.isAlpha || c.isDigit

/-- Wordness of the character on the far side of a potential `\b`
(absent character = non-word). -/
def optIsWord : Option Char → Bool
  | none => false
  | some c => isWordChar c

/-- JS `String.prototype.toLowerCase` (ASCII range). -/
def toLowerStr (s : String) : String := String.mk (s.toList.map Char.toLower)

/-- JS `String.prototype.startsWith`. -/
def strStartsWith (s pat : String) : Bool := pat.toList.isPrefixOf s.toList

/-- JS `String.prototype.trim`. -/
def trimJS (s : String) : String :=
  String.mk (((s.toList.dropWhile isSpaceJS).reverse.dropWhile isSpaceJS).reverse)

/-- JS `String.prototype.includes`. -/
def strIncludes (s pat : String) : Bool :=
  (s.toList.tails).any (fun t => pat.toList.isPrefixOf t)

/-- Case-insensitive literal match at the head of `l` (`w` given lowercase). -/
def matchesLitCI (w : String) (l : List Char) : Bool :=
  w.toList.isPrefixOf (l.map Char.toLower)

/-- The singleton list holding the last element, `[]` when empty. -/
def lastOne (l : List Char) : List Char :=
  match l.getLast? with
  | some c => [c]
  | none => []

/-! ### Word-token and digit-run tests (regexes of `looksLikeIdentifier`) -/

/-- One step of the `/\bw\b/i` scan: does the word `w` occur at the head of
the remaining text with a word boundary on each side?  `prev` is the
character just before the current position. -/
def wordTokenHere (w : List Char) (l : List Char) : Bool :=
  w.isPrefixOf (l.map Char.toLower) && !optIsWord ((l.drop w.length).head?)

def testWordCIAux (w : List Char) : Option Char → List Char → Bool
  | _, [] => false
  | prev, c :: rest =>
    (!optIsWord prev && wordTokenHere w (c :: rest)) ||
      testWordCIAux w (some c) rest

/-- JS `/\bw\b/i.test(s)` for a word `w` made of word characters. -/
def testWordCI (w s : String) : Bool :=
  testWordCIAux (w.toList.map Char.toLower) none s.toList

/-- All matches of JS `/\b\d{4,}\b/g` (maximal digit runs of length ≥ 4
delimited by word boundaries).  Scanning one position at a time agrees with
the engine's `lastIndex` advancement because a digit run never contains an
interior match start (the previous character would be a digit, a word
character, so the left `\b` fails). -/
def digitTokensAux : Option Char → List Char → List String
  | _, [] => []
  | prev, c :: rest =>
    if !optIsWord prev && c.isDigit &&
        decide (((c :: rest).takeWhile Char.isDigit).length ≥ 4) &&
        !optIsWord (((c :: rest).drop ((c :: rest).takeWhile Char.isDigit).length).head?) then
      String.mk ((c :: rest).takeWhile Char.isDigit) :: digitTokensAux (some c) rest
    else digitTokensAux (some c) rest

def digitTokensAll (s : String) : List String := digitTokensAux none s.toList

/-! ### The code-token regex: word boundary, an alphanumeric run, one
hyphen or colon, then a run over alphanumerics, slash and hyphen, ending at
a word boundary (case-insensitive). -/

/-- The tail character class (alphanumerics, slash, hyphen) under the
case-insensitive flag. -/
def isTailClass (c : Char) : Bool := isAlnumChar c || c == '/' || c == '-'

/-- Greedy end of `(...)+\b`: the greatest `k ≥ 1` such that a word
boundary sits right after the first `k` characters of the run `r` (the
character after the whole run is `after`).  `none` when no prefix end is a
boundary. -/
def greedyBoundaryK : List Char → Option Char → Option Nat
  | [], _ => none
  | a :: rest, after =>
    match greedyBoundaryK rest after with
    | some k => some (k + 1)
    | none =>
      let nxt := match rest with
        | [] => after
        | b :: _ => some b
      if isWordChar a != optIsWord nxt then some 1 else none

/-- Attempt the code-token regex at the head of `l` (the caller has already
checked the left word boundary).  Returns the matched text and the
remainder of the input after the match. -/
def codeTokenMatchAt (l : List Char) : Option (List Char × List Char) :=
  let run1 := l.takeWhile isAlnumChar
  if run1.isEmpty then none
  else
    match l.drop run1.length with
    | [] => none
    | sep :: rest2 =>
      if sep == '-' || sep == ':' then
        let r := rest2.takeWhile isTailClass
        match greedyBoundaryK r ((rest2.drop r.length).head?) with
        | none => none
        | some k => some (run1 ++ sep :: r.take k, rest2.drop k)
      else none

/-- All matches of the code-token regex under the global flag: the scan resumes
after each match (the engine's `lastIndex`), so `fuel` (initially the input
length, an upper bound on the number of steps) drives the recursion. -/
def codeTokensAux : Nat → Option Char → List Char → List String
  | 0, _, _ => []
  | _ + 1, _, [] => []
  | fuel + 1, prev, c :: rest =>
    if !optIsWord prev && isAlnumChar c then
      match codeTokenMatchAt (c :: rest) with
      | some (tok, remainder) =>
        String.mk tok :: codeTokensAux fuel tok.getLast? remainder
      | none => codeTokensAux fuel (some c) rest
    else codeTokensAux fuel (some c) rest

def codeTokensAll (s : String) : List String :=
  codeTokensAux s.length none s.toList

/-! ### RagService (rag.service.ts) -/

/-- A retrieved chunk row (`RagRow` in rag.service.ts). -/
structure RagRow where
  chunk_id : Int
  doc_type : String
  entity_table : Option String
  entity_id : Option String
  title : String
  chunk_text : String
deriving DecidableEq, Repr

/-- `RagService.looksLikeIdentifier` (rag.service.ts lines 137-152). -/
def looksLikeIdentifier (q : String) : Bool :=
  let s := trimJS q
  let hasBarcode := testWordCI "barcode" s
  let digitToken := !(digitTokensAll s).isEmpty
  let hasLikelyBarcode := hasBarcode && digitToken
  let hasCodeWord := testWordCI "code" s
  let codeToken := !(codeTokensAll s).isEmpty
  let hasLikelyCode := hasCodeWord || codeToken
  hasLikelyBarcode || hasLikelyCode

/-- JS `Set` insertion-order dedup (first occurrence kept). -/
def dedupFirstAux (seen : List String) : List String → List String
  | [] => []
  | x :: xs =>
    if seen.contains x then dedupFirstAux seen xs
    else x :: dedupFirstAux (x :: seen) xs

/-- `RagService.extractIdentifierTokens` (rag.service.ts lines 154-169). -/
def extractIdentifierTokens (q : String) : List String :=
  let s := trimJS q
  let nums := digitTokensAll s
  let codes := codeTokensAll s
  let out := (dedupFirstAux [] (nums ++ codes ++ [s])).filter (fun t => t != "")
  out.take 5

/-- The database / embedding oracles behind `searchLexical`, `searchVector`
and `search` (each models the whole async call). -/
structure RagEnv where
  lex : String → Nat → List RagRow
  vec : String → Nat → List RagRow
  sem : String → Nat → List RagRow

/-- JS `Map.set` keyed by `Number(chunk_id)`: an existing key keeps its
insertion position but takes the new value; a new key is appended. -/
def jsMapSet (m : List (Int × RagRow)) (k : Int) (v : RagRow) : List (Int × RagRow) :=
  if m.any (fun p => p.1 == k) then m.map (fun p => if p.1 == k then (k, v) else p)
  else m ++ [(k, v)]

/-- Insert every row of `rows` into the map (the `for (const r of ...) dedup.set(...)` loops). -/
def dedupInsertAll (m : List (Int × RagRow)) (rows : List RagRow) : List (Int × RagRow) :=
  rows.foldl (fun acc r => jsMapSet acc r.chunk_id r) m

/-- The per-token lexical loop of `searchHybrid`: push each token's rows and
break once the accumulated (not yet deduplicated) list reaches `limit`. -/
def accumLexical (lexQuery : String → Nat → List RagRow) (limit : Nat) :
    List String → List RagRow → List RagRow
  | [], acc => acc
  | t :: ts, acc =>
    let acc2 := acc ++ lexQuery t limit
    if acc2.length ≥ limit then acc2 else accumLexical lexQuery limit ts acc2

/-- `RagService.searchHybrid` (rag.service.ts lines 171-200). -/
def searchHybrid (env : RagEnv) (query : String) (limit : Nat) : List RagRow :=
  if looksLikeIdentifier query then
    let tokens := extractIdentifierTokens query
    let lexicalResults := accumLexical env.lex limit tokens []
    let dedup := dedupInsertAll [] lexicalResults
    if dedup.length ≥ min 3 limit then
      (dedup.map Prod.snd).take limit
    else
      let vector := env.vec query limit
      let dedup2 := dedupInsertAll dedup vector
      (dedup2.map Prod.snd).take limit
  else env.sem query limit

/-! ### AgentService (agent.service.ts): answer model -/

/-- One claimed citation (`AnswerSchema.citations` items; both fields are
optional in the zod schema). -/
structure Citation where
  chunk_id : Option Int
  title : Option String
deriving DecidableEq, Repr

/-- A candidate answer object (`AnswerOutput`).  `answer = none` models a
value whose `answer` field is not a string.  `grounded` is the result of
the JS `=== true` test; `confidence = none` models a non-number field.  The
candidate's own `matches` field is not modelled: it is read nowhere and is
always overwritten at assembly (agent.service.ts line 566). -/
structure CandAnswer where
  answer : Option String
  grounded : Bool
  confidence : Option ℚ
  citations : List Citation
  missing_data : List String
  next_questions : List String
deriving DecidableEq, Repr

/-- The object returned by `AgentService.run`: the winner's fields with
`matches` and `citations` overwritten. -/
structure FinalAnswer where
  answer : Option String
  grounded : Bool
  confidence : Option ℚ
  citations : List Citation
  matches_ : List RagRow
  missing_data : List String
  next_questions : List String
deriving DecidableEq, Repr

/-! ### extractDirectMatchSignals (agent.service.ts lines 309-339) -/

/-- The capture class of the code regex: alphanumerics, colon, slash,
hyphen and whitespace. -/
def isCodeCapClass (c : Char) : Bool :=
  isAlnumChar c || c == ':' || c == '/' || c == '-' || isSpaceJS c

/-- Leftmost occurrence of the literal `code` (case-insensitive) whose
whole remaining suffix is non-empty and lies in the capture class — exactly
when the end-anchored code regex matches.  Returns that suffix. -/
def findCodeSuffix : List Char → Option (List Char)
  | [] => none
  | c :: rest =>
    if matchesLitCI "code" (c :: rest) &&
        !((c :: rest).drop 4).isEmpty && ((c :: rest).drop 4).all isCodeCapClass then
      some ((c :: rest).drop 4)
    else findCodeSuffix rest

/-- The capture group value for a matched code suffix: greedy `\s*`, an
optional colon or hyphen, greedy `\s*`, then the group, backtracking so the
group keeps at least one character (in the all-whitespace corner cases the
backtracked capture is a single trailing character). -/
def codeCaptureOf (suf : List Char) : List Char :=
  match suf.dropWhile isSpaceJS with
  | [] => lastOne suf
  | c :: rest =>
    if c == ':' || c == '-' then
      match rest.dropWhile isSpaceJS with
      | [] => if rest.isEmpty then [c] else lastOne rest
      | s2 => s2
    else c :: rest

/-- `codeLike`: the trimmed capture of the code regex (`none` when the
regex does not match). -/
def codeLikeOf (question : String) : Option String :=
  (findCodeSuffix question.toList).map (fun suf => trimJS (String.mk (codeCaptureOf suf)))

/-- The barcode capture class: alphanumerics and hyphen. -/
def isBarcodeCapClass (c : Char) : Bool := isAlnumChar c || c == '-'

/-- Greedy `[0-9A-Za-z-]+` followed by a word boundary, starting at `v`:
the capture, shrunk from the maximal class run until the boundary holds. -/
def capPlusBoundary (v : List Char) : Option (List Char) :=
  let r := v.takeWhile isBarcodeCapClass
  (greedyBoundaryK r ((v.drop r.length).head?)).map (fun k => r.take k)

/-- Match the barcode regex tail (greedy `\s*`, optional colon or hyphen,
greedy `\s*`, capture, word boundary) against the suffix after the literal
`barcode`.  A shrunk inner `\s*` would put a space (outside the class) at
the head of the capture, so the only live backtrack is dropping the
optional separator, which helps only when it was a hyphen. -/
def barcodeCapAt (suf : List Char) : Option (List Char) :=
  match suf.dropWhile isSpaceJS with
  | [] => none
  | c :: rest =>
    if c == ':' || c == '-' then
      match capPlusBoundary (rest.dropWhile isSpaceJS) with
      | some cap => some cap
      | none => if c == '-' then capPlusBoundary (c :: rest) else none
    else capPlusBoundary (c :: rest)

/-- Leftmost match of the barcode regex: scan for the literal `barcode`
(case-insensitive) and try the tail there, moving on when it fails. -/
def findBarcodeCap : List Char → Option (List Char)
  | [] => none
  | c :: rest =>
    if matchesLitCI "barcode" (c :: rest) then
      match barcodeCapAt ((c :: rest).drop 7) with
      | some cap => some cap
      | none => findBarcodeCap rest
    else findBarcodeCap rest

/-- `barcodeLike`: the trimmed capture of the barcode regex. -/
def barcodeLikeOf (question : String) : Option String :=
  (findBarcodeCap question.toList).map (fun cap => trimJS (String.mk cap))

/-- JS line terminators (which `.` does not match). -/
def isLineTerm (c : Char) : Bool :=
  c == '\n' || c == '\r' || c == Char.ofNat 0x2028 || c == Char.ofNat 0x2029

/-- Match `\s+(.+?)\??$` against `u` and return the lazy capture: after
the greedy whitespace run, the remainder minus an optional trailing
question mark, provided it is non-empty and free of line terminators.
When the remainder is empty the backtracked capture is the last
whitespace character. -/
def lazyNameCapAt (u : List Char) : Option (List Char) :=
  match u with
  | [] => none
  | c :: _ =>
    if !isSpaceJS c then none
    else
      match u.dropWhile isSpaceJS with
      | [] =>
        if u.length ≥ 2 && !(lastOne u).any isLineTerm then some (lastOne u) else none
      | rem =>
        let cap := if rem.getLast? == some '?' && decide (rem.length ≥ 2)
          then rem.dropLast else rem
        if cap.any isLineTerm then none else some cap

/-- Leftmost match of a literal followed by `\s+(.+?)\??$`
(case-insensitive literal), returning the capture. -/
def litThenNameCap (lit : String) : List Char → Option (List Char)
  | [] => none
  | c :: rest =>
    if matchesLitCI lit (c :: rest) then
      match lazyNameCapAt ((c :: rest).drop lit.length) with
      | some cap => some cap
      | none => litThenNameCap lit rest
    else litThenNameCap lit rest

/-- JS `a || b` over possibly-absent strings: an empty string is falsy and
falls through. -/
def jsOrStr : Option String → Option String → Option String
  | some s, y => if s == "" then y else some s
  | none, y => y

/-- `possibleName`: the first truthy of the three name-shaped captures. -/
def possibleNameOf (q : String) : Option String :=
  let a := (litThenNameCap "do we have" q.toList).map (fun cp => trimJS (String.mk cp))
  let b := (litThenNameCap "have we built" q.toList).map (fun cp => trimJS (String.mk cp))
  let c := (litThenNameCap "product named" q.toList).map (fun cp => trimJS (String.mk cp))
  jsOrStr (jsOrStr a b) c

/-- The three direct-match booleans. -/
structure MatchSignals where
  hasCodeInSources : Bool
  hasBarcodeInSources : Bool
  hasNameInSources : Bool
deriving DecidableEq, Repr

/-- A truthy capture looked up (lowercased, with its label prefix) in the
lowercased sources text. -/
def labelledLookup (cap : Option String) (label sourcesText : String) : Bool :=
  match cap with
  | some cl => cl != "" && strIncludes (toLowerStr sourcesText) (label ++ toLowerStr cl)
  | none => false

/-- `AgentService.extractDirectMatchSignals` (agent.service.ts 309-339). -/
def extractDirectMatchSignals (question sourcesText : String) : MatchSignals :=
  { hasCodeInSources := labelledLookup (codeLikeOf question) "code: " sourcesText
    hasBarcodeInSources := labelledLookup (barcodeLikeOf question) "barcode: " sourcesText
    hasNameInSources := labelledLookup (possibleNameOf question) "name: " sourcesText }

/-! ### scoreAnswer (agent.service.ts lines 341-392) -/

/-- The negative-marker test on the answer text: the lowercased answer
starts with `no` or contains `couldn’t find` (with the curly apostrophe,
as in the source). -/
def saysNoOf (ans : String) : Bool :=
  let ansLower := toLowerStr ans
  strStartsWith ansLower "no" || strIncludes ansLower "couldn’t find"

/-- `a/b ≤ x` for a rational `x` and integers `a`, `b > 0`, written by
cross-multiplication so that it evaluates by integer arithmetic alone
(`geTenths_iff` below proves it equal to the fractional comparison the
source writes). -/
def geTenths (x : ℚ) (a b : Int) : Prop := a * (x.den : Int) ≤ x.num * b

instance (x : ℚ) (a b : Int) : Decidable (geTenths x a b) := Int.decLe _ _

/-- The disjunction of the three signals, as it appears (spelled out) in
both signal conditions of `scoreAnswer`. -/
def anySignal (question sourcesText : String) : Bool :=
  let signals := extractDirectMatchSignals question sourcesText
  signals.hasCodeInSources || signals.hasBarcodeInSources || signals.hasNameInSources

/-- `AgentService.scoreAnswer`.  Citation ids are compared through JS
`String(...)`, which is injective from numbers and sends an absent
`chunk_id` to `"undefined"`; comparing `Option Int` keys mirrors that. -/
def scoreAnswer (out : Option CandAnswer) (filteredMatches : List RagRow)
    (sourcesText question : String) : Int :=
  match out with
  | none => -999
  | some o =>
    match o.answer with
    | none => -999
    | some ans =>
      let groundedTerm : Int := if o.grounded then 3 else -1
      let conf : ℚ := o.confidence.getD 0
      let overconfTerm : Int := if geTenths conf 9 10 ∧ o.grounded = false then -2 else 0
      let confTerm : Int := if geTenths conf 7 10 then 1 else 0
      let matchIds := filteredMatches.map (fun m => some m.chunk_id)
      let citedIds := o.citations.map (fun c => c.chunk_id)
      let invalidCites := citedIds.filter (fun id => !matchIds.contains id)
      let citeTerm : Int :=
        if !invalidCites.isEmpty then -5 else if !citedIds.isEmpty then 1 else 0
      let saysNo := saysNoOf ans
      let anySig := anySignal question sourcesText
      let denyTerm : Int := if saysNo && anySig then -10 else 0
      let affirmTerm : Int := if !saysNo && anySig then 1 else 0
      groundedTerm + overconfTerm + confTerm + citeTerm + denyTerm + affirmTerm

/-! ### AgentService.run (agent.service.ts lines 394-569) -/

/-- Which prompt produced the duel winner. -/
inductive PromptVersion
  | v1
  | v2
deriving DecidableEq, Repr

structure Winner where
  out : Option CandAnswer
  version : PromptVersion
  score : Int
deriving DecidableEq, Repr

/-- The duel selection (line 547): the second candidate wins only on a
strictly higher score. -/
def pickWinner (out1 out2 : Option CandAnswer) (score1 score2 : Int) : Winner :=
  if score2 > score1 then ⟨out2, .v2, score2⟩ else ⟨out1, .v1, score1⟩

/-- `AgentService.buildSourcesText`. -/
def buildSourcesText (matches_ : List RagRow) : String :=
  if matches_.isEmpty then ""
  else
    String.intercalate "\n\n" (matches_.enum.map (fun p =>
      "# Source " ++ toString (p.1 + 1) ++ " (chunk_id=" ++ toString p.2.chunk_id ++
        ", title=" ++ p.2.title ++ ")" ++ "\n" ++ p.2.chunk_text))

/-- Step 1 of `run`: the rewrite chain outcome is a thrown error
(`Except.error`), an object without a usable string (`ok none`), or a
string; a caught error, a missing field, or a string that trims to empty
all fall back to the raw message, otherwise the trimmed rewrite is used. -/
def computeRagQuery (rw : Except Unit (Option String)) (message : String) : String :=
  match rw with
  | .error _ => message
  | .ok none => message
  | .ok (some s) => if trimJS s == "" then message else trimJS s

/-- The identifier-style test of step 3 (line 470): plain substring
alternation, case-insensitive, no word boundaries. -/
def isIdentifierQuery (message : String) : Bool :=
  let m := toLowerStr message
  strIncludes m "barcode" || strIncludes m "code" || strIncludes m "look up" ||
    strIncludes m "lookup" || strIncludes m "find" || strIncludes m "search" ||
    strIncludes m "show me"

/-- Step 3 of `run` (lines 439-476): keep only retrieved rows whose
chunk id is in the filter's keep set; when that leaves nothing, fall back
to the top match for semantic questions and to nothing for
identifier-style questions.  An empty retrieval list skips the stage. -/
def filterStage (matches_ : List RagRow) (keepIds : List Int) (message : String) :
    List RagRow :=
  if matches_.isEmpty then matches_
  else
    let filtered := matches_.filter (fun m => keepIds.contains m.chunk_id)
    if filtered.isEmpty then
      if isIdentifierQuery message then [] else matches_.take 1
    else filtered

/-- Step 5 of `run` (lines 559-568): overwrite `matches` with the filtered
list and `citations` with the whole filtered list rewritten to
chunk id and title — or with nothing when the winner claimed no citation. -/
def assembleAnswer (winnerOut : CandAnswer) (filteredMatches : List RagRow) :
    FinalAnswer :=
  let safeCitations := filteredMatches.map (fun m =>
    Citation.mk (some m.chunk_id) (some m.title))
  { answer := winnerOut.answer
    grounded := winnerOut.grounded
    confidence := winnerOut.confidence
    missing_data := winnerOut.missing_data
    next_questions := winnerOut.next_questions
    matches_ := filteredMatches
    citations := if !winnerOut.citations.isEmpty then safeCitations else [] }

/-- The per-request oracle outcomes: the rewrite chain, the retrieval
oracles, the filter completion's keep list, and the two candidate
generations. -/
structure AgentEnv where
  ragEnv : RagEnv
  rewriteOutcome : Except Unit (Option String)
  filterKeep : List Int
  out1 : Option CandAnswer
  out2 : Option CandAnswer

/-- `run` from the retrieval stage on, with the rag query fixed.  The
result is `none` exactly when the winner's output object is null, in which
case the source's final spread would throw instead of returning. -/
def runAgentFromQuery (env : AgentEnv) (message ragQuery : String) :
    Option FinalAnswer :=
  let matches_ := searchHybrid env.ragEnv ragQuery 10
  let filteredMatches := filterStage matches_ env.filterKeep message
  let sourcesText := buildSourcesText filteredMatches
  let score1 := scoreAnswer env.out1 filteredMatches sourcesText message
  let score2 := scoreAnswer env.out2 filteredMatches sourcesText message
  let winner := pickWinner env.out1 env.out2 score1 score2
  winner.out.map (fun o => assembleAnswer o filteredMatches)

/-- `AgentService.run`. -/
def runAgent (env : AgentEnv) (message : String) : Option FinalAnswer :=
  runAgentFromQuery env message (computeRagQuery env.rewriteOutcome message)

/-! ### Specification-side definitions and concrete example inputs -/

/-- A run of at least four consecutive digits anywhere in the string
(the specification's plain reading, with no word-boundary requirement). -/
def hasDigitRunAnywhere (s : String) : Bool :=
  (s.toList.tails).any (fun t => decide ((t.takeWhile Char.isDigit).length ≥ 4))

/-- The specification's classification, following its words: identifier-like
iff the query contains an explicit `code` or `barcode` token, a run of ≥ 4
consecutive digits, or a hyphen/colon-joined alphanumeric token.  Written
for comparison against `looksLikeIdentifier`. -/
def specIdentifierLike (q : String) : Bool :=
  testWordCI "code" q || testWordCI "barcode" q ||
    hasDigitRunAnywhere q || !(codeTokensAll q).isEmpty

/-- Example rows used by the concrete counterexamples and witnesses. -/
def exRowA : RagRow := ⟨1, "product", none, none, "T1", "Name: Alpha"⟩

def exRowB : RagRow := ⟨2, "product", none, none, "T2", "Name: Beta"⟩

def exRowC : RagRow := ⟨3, "product", none, none, "T3", "Name: Gamma"⟩

/-- A winner output claiming only chunk 1 as citation. -/
def exWinnerC1 : CandAnswer :=
  ⟨some "Yes — Alpha", true, none, [⟨some 1, some "T1"⟩], [], []⟩

/-- Two candidates identical except for the answer text. -/
def exCand1 : CandAnswer := ⟨some "Yes — option A", true, none, [], [], []⟩

def exCand2 : CandAnswer := ⟨some "Yes — option B", true, none, [], [], []⟩

/-- An environment whose retrieval returns one row, whose filter keeps it,
and whose first candidate cites it. -/
def exEnv : AgentEnv :=
  { ragEnv := ⟨fun _ _ => [], fun _ _ => [], fun _ _ => [exRowA]⟩
    rewriteOutcome := .error ()
    filterKeep := [1]
    out1 := some ⟨some "Yes — Alpha", true, none, [⟨some 1, some "T1"⟩], [], []⟩
    out2 := none }

/-- The answer `exEnv` produces for the empty message. -/
def exAns : FinalAnswer :=
  assembleAnswer ⟨some "Yes — Alpha", true, none, [⟨some 1, some "T1"⟩], [], []⟩ [exRowA]

/-- A lexical oracle returning three distinct rows for every token. -/
def exLex : String → Nat → List RagRow := fun _ _ => [exRowA, exRowB, exRowC]

/-- The citation term of the rubric in isolation (the `-5`, `+1` or `0`
contribution computed from the claimed citations and the filtered
matches), for reasoning about `scoreAnswer` one term at a time. -/
def citeTerm (cits : List Citation) (fm : List RagRow) : Int :=
  let matchIds := fm.map (fun m => some m.chunk_id)
  let citedIds := cits.map (fun c => c.chunk_id)
  let invalidCites := citedIds.filter (fun id => !matchIds.contains id)
  if !invalidCites.isEmpty then -5 else if !citedIds.isEmpty then 1 else 0

/-! ## Helper lemmas -/

/-- Faithfulness of the cross-multiplied confidence comparison: `geTenths
x a b` is exactly the source's `a/b ≤ x` (for a positive denominator). -/
theorem geTenths_iff (x : ℚ) (a b : Int) (hb : 0 < b) :
    geTenths x a b ↔ (a : ℚ) / (b : ℚ) ≤ x := by
  have hb' : (0:ℚ) < (b:ℚ) := by exact_mod_cast hb
  have hd : (0:ℚ) < ((x.den : ℚ)) := by exact_mod_cast x.den_pos
  have hx : x * ((x.den : ℚ)) = ((x.num : ℚ)) := by
    have h0 := Rat.num_div_den x
    rw [div_eq_iff (ne_of_gt hd)] at h0
    linarith [h0]
  rw [div_le_iff₀ hb']
  unfold geTenths
  constructor
  · intro h
    have h2 : ((a : ℚ)) * ((x.den : ℚ)) ≤ ((x.num : ℚ)) * ((b : ℚ)) := by exact_mod_cast h
    nlinarith [h2, hx, hd, hb']
  · intro h
    have h2 : ((a : ℚ)) * ((x.den : ℚ)) ≤ ((x.num : ℚ)) * ((b : ℚ)) := by
      nlinarith [hx, hd, hb']
    exact_mod_cast h2

/-- Closed form of `scoreAnswer` on a well-formed candidate. -/
theorem scoreAnswer_some_eq (o : CandAnswer) (ans : String) (h : o.answer = some ans)
    (fm : List RagRow) (st q : String) :
    scoreAnswer (some o) fm st q =
      (if o.grounded then 3 else -1) +
      (if geTenths (o.confidence.getD 0) 9 10 ∧ o.grounded = false then -2 else 0) +
      (if geTenths (o.confidence.getD 0) 7 10 then 1 else 0) +
      (if !((o.citations.map (fun c => c.chunk_id)).filter
            (fun id => !(fm.map (fun m => some m.chunk_id)).contains id)).isEmpty then -5
        else if !(o.citations.map (fun c => c.chunk_id)).isEmpty then 1 else 0) +
      (if saysNoOf ans && anySignal q st then -10 else 0) +
      (if !(saysNoOf ans) && anySignal q st then 1 else 0) := by
  simp only [scoreAnswer, h]

end ErpChat

namespace ErpChat

/-! ## C1 — response assembly -/

/-- C1 counterexample: with filtered matches `{1, 2}` and a winner claiming
only chunk 1, the assembled citations are the whole filtered list — chunk 2
appears although it is outside the intersection of the winner's claimed
citation ids `[1]` with the filtered ids, so the claimed intersection
description is false at this input. -/
theorem C1_counterexample :
    (assembleAnswer exWinnerC1 [exRowA, exRowB]).citations =
      [Citation.mk (some 1) (some "T1"), Citation.mk (some 2) (some "T2")] ∧
    exWinnerC1.citations.map (fun c => c.chunk_id) = [some 1] := by
  decide

/-- C1 (amended): the assembled response's `matches` field always equals
the filtered match list; its citations are empty when the winner claimed no
citation, and otherwise are the whole filtered match list rewritten to
chunk id and title (not the intersection with the claimed list). -/
theorem C1_assembly (w : CandAnswer) (fm : List RagRow) :
    (assembleAnswer w fm).matches_ = fm ∧
    (w.citations = [] → (assembleAnswer w fm).citations = []) ∧
    (w.citations ≠ [] →
      (assembleAnswer w fm).citations =
        fm.map (fun m => Citation.mk (some m.chunk_id) (some m.title))) := by
  refine ⟨rfl, ?_, ?_⟩ <;> intro h <;>
    simp [assembleAnswer, h, List.isEmpty_iff]

/-- Witness for `C1_assembly` at a concrete winner and match list. -/
theorem C1_assembly_witness :
    (assembleAnswer exWinnerC1 [exRowA, exRowB]).citations =
      [exRowA, exRowB].map (fun m => Citation.mk (some m.chunk_id) (some m.title)) :=
  (C1_assembly exWinnerC1 [exRowA, exRowB]).2.2 (by decide)

/-! ## C2 — duel selection -/

/-- C2 counterexample: two distinct candidates with equal rubric scores;
the duel selects the first (v1) candidate, not the second as claimed. -/
theorem C2_counterexample :
    scoreAnswer (some exCand1) [] "" "" = scoreAnswer (some exCand2) [] "" "" ∧
    (pickWinner (some exCand1) (some exCand2)
        (scoreAnswer (some exCand1) [] "" "")
        (scoreAnswer (some exCand2) [] "" "")).version = PromptVersion.v1 ∧
    exCand1 ≠ exCand2 := by
  decide

/-- C2 (amended): the candidate with the strictly higher rubric score is
selected; when the two scores are equal the first (v1) policy's answer is
selected, not the second. -/
theorem C2_duel (out1 out2 : Option CandAnswer) (fm : List RagRow) (st q : String) :
    (scoreAnswer out1 fm st q > scoreAnswer out2 fm st q →
      (pickWinner out1 out2 (scoreAnswer out1 fm st q) (scoreAnswer out2 fm st q)).version =
        PromptVersion.v1) ∧
    (scoreAnswer out2 fm st q > scoreAnswer out1 fm st q →
      (pickWinner out1 out2 (scoreAnswer out1 fm st q) (scoreAnswer out2 fm st q)).version =
        PromptVersion.v2) ∧
    (scoreAnswer out1 fm st q = scoreAnswer out2 fm st q →
      (pickWinner out1 out2 (scoreAnswer out1 fm st q) (scoreAnswer out2 fm st q)).version =
        PromptVersion.v1) := by
  unfold pickWinner
  refine ⟨fun h => ?_, fun h => ?_, fun h => ?_⟩ <;> split <;> first | rfl | omega

/-- Witness for `C2_duel`: with a malformed second candidate the first one
scores strictly higher and is selected. -/
theorem C2_duel_witness :
    (pickWinner (some exCand1) none (scoreAnswer (some exCand1) [] "" "")
      (scoreAnswer none [] "" "")).version = PromptVersion.v1 :=
  (C2_duel (some exCand1) none [] "" "").1 (by decide)

/-! ## C3 — identifier-like classification -/

/-- C3 counterexample: the query `1234` contains a run of four digits and
none of the other features; the specification calls it identifier-like but
`looksLikeIdentifier` classifies it as semantic. -/
theorem C3_counterexample :
    specIdentifierLike "1234" = true ∧ looksLikeIdentifier "1234" = false := by
  decide

/-- C3 (amended): the query is classified identifier-like iff it contains a
word-bounded `code` token, or a hyphen/colon-joined alphanumeric token, or
both a word-bounded `barcode` token and a word-bounded run of ≥ 4 digits.
A digit run alone, or `barcode` alone, does not qualify. -/
theorem C3_mode (q : String) :
    looksLikeIdentifier q =
      (testWordCI "code" (trimJS q) || !(codeTokensAll (trimJS q)).isEmpty ||
        (testWordCI "barcode" (trimJS q) && !(digitTokensAll (trimJS q)).isEmpty)) := by
  simp only [looksLikeIdentifier]
  cases h1 : testWordCI "barcode" (trimJS q) <;>
    cases h2 : testWordCI "code" (trimJS q) <;>
    cases h3 : (digitTokensAll (trimJS q)).isEmpty <;>
    cases h4 : (codeTokensAll (trimJS q)).isEmpty <;> rfl

end ErpChat

namespace ErpChat

/-! ## C4 — citation subset invariant -/

/-- Assembly-level form of the invariant (shared helper). -/
theorem assemble_citation_subset (w : CandAnswer) (fm : List RagRow) :
    ∀ c ∈ (assembleAnswer w fm).citations,
      c.chunk_id ∈ (assembleAnswer w fm).matches_.map (fun m => some m.chunk_id) := by
  intro c hc
  simp only [assembleAnswer] at hc ⊢
  split at hc
  · obtain ⟨m, hm, rfl⟩ := List.mem_map.mp hc
    exact List.mem_map.mpr ⟨m, hm, rfl⟩
  · simp at hc

/-- C4: for every oracle behaviour for which the pipeline returns an
answer, every chunk id appearing in the answer's citations also appears
among the chunk ids of the answer's matches. -/
theorem C4_citation_subset (env : AgentEnv) (message : String) (ans : FinalAnswer)
    (h : runAgent env message = some ans) :
    ∀ c ∈ ans.citations, c.chunk_id ∈ ans.matches_.map (fun m => some m.chunk_id) := by
  unfold runAgent runAgentFromQuery at h
  obtain ⟨o, _, rfl⟩ := Option.map_eq_some'.mp h
  exact assemble_citation_subset o _

/-- Witness for `C4_citation_subset`: the concrete environment returns an
answer citing chunk 1, which is among its matches. -/
theorem C4_citation_subset_witness :
    (Citation.mk (some 1) (some "T1")).chunk_id ∈
      exAns.matches_.map (fun m => some m.chunk_id) :=
  C4_citation_subset exEnv "" exAns (by decide) (Citation.mk (some 1) (some "T1"))
    (by decide)

/-! ## C8 — evidence-filter fallback -/

/-- C8: when retrieval is non-empty but the admission step keeps nothing,
the filtered set is the single top-ranked candidate for a semantic
question and the empty set for an identifier-style question. -/
theorem C8_filter_fallback (matches_ : List RagRow) (keepIds : List Int)
    (message : String) (hne : matches_ ≠ [])
    (hkeep : matches_.filter (fun m => keepIds.contains m.chunk_id) = []) :
    filterStage matches_ keepIds message =
      (if isIdentifierQuery message then [] else [matches_.head hne]) := by
  unfold filterStage
  rw [if_neg (by simp [List.isEmpty_iff, hne])]
  rw [hkeep]
  simp only [List.isEmpty_nil, if_pos rfl]
  cases matches_ with
  | nil => exact absurd rfl hne
  | cons a l => simp [List.take]

/-- Witness for `C8_filter_fallback`: one retrieved row, nothing kept, a
semantic question falls back to that row. -/
theorem C8_filter_fallback_witness :
    filterStage [exRowA] [99] "hello" =
      (if isIdentifierQuery "hello" then [] else [[exRowA].head (by decide)]) :=
  C8_filter_fallback [exRowA] [99] "hello" (by decide) (by decide)

/-! ## C9 — reformulation failure fallback -/

/-- C9: a thrown, missing, or blank rewrite makes the pipeline use the raw
question verbatim as the retrieval query and continue to retrieval: the run
is exactly the run-from-retrieval on the raw message. -/
theorem C9_rewrite_fallback (env : AgentEnv) (message : String)
    (h : env.rewriteOutcome = .error () ∨ env.rewriteOutcome = .ok none ∨
      ∃ s, env.rewriteOutcome = .ok (some s) ∧ trimJS s = "") :
    computeRagQuery env.rewriteOutcome message = message ∧
    runAgent env message = runAgentFromQuery env message message := by
  have hq : computeRagQuery env.rewriteOutcome message = message := by
    rcases h with h | h | ⟨s, h, hs⟩
    · rw [h]; rfl
    · rw [h]; rfl
    · rw [h]; simp [computeRagQuery, hs]
  exact ⟨hq, by rw [runAgent, hq]⟩

/-- Witness for `C9_rewrite_fallback`: the concrete environment's rewrite
throws and the raw message is used. -/
theorem C9_rewrite_fallback_witness :
    computeRagQuery exEnv.rewriteOutcome "Do we have Transformers?" =
      "Do we have Transformers?" :=
  (C9_rewrite_fallback exEnv "Do we have Transformers?" (Or.inl rfl)).1

end ErpChat

namespace ErpChat

/-! ## Helper lemmas about the rubric terms -/

/-- `scoreAnswer` split with the citation term factored out. -/
theorem scoreAnswer_citeTerm_eq (o : CandAnswer) (ans : String)
    (h : o.answer = some ans) (fm : List RagRow) (st q : String) :
    scoreAnswer (some o) fm st q =
      (if o.grounded then 3 else -1) +
      (if geTenths (o.confidence.getD 0) 9 10 ∧ o.grounded = false then -2 else 0) +
      (if geTenths (o.confidence.getD 0) 7 10 then 1 else 0) +
      citeTerm o.citations fm +
      (if saysNoOf ans && anySignal q st then -10 else 0) +
      (if !(saysNoOf ans) && anySignal q st then 1 else 0) := by
  simp only [scoreAnswer, citeTerm, h]

/-- A citation whose chunk id is outside the filtered set forces the
`-5` branch. -/
theorem citeTerm_of_invalid (cits : List Citation) (fm : List RagRow)
    (h : ∃ c ∈ cits, c.chunk_id ∉ fm.map (fun m => some m.chunk_id)) :
    citeTerm cits fm = -5 := by
  obtain ⟨c, hc, hnc⟩ := h
  have hmem : c.chunk_id ∈
      (cits.map (fun c => c.chunk_id)).filter
        (fun id => !(fm.map (fun m => some m.chunk_id)).contains id) := by
    refine List.mem_filter.mpr ⟨List.mem_map.mpr ⟨c, hc, rfl⟩, ?_⟩
    simpa using hnc
  have hne : ((cits.map (fun c => c.chunk_id)).filter
      (fun id => !(fm.map (fun m => some m.chunk_id)).contains id)) ≠ [] :=
    List.ne_nil_of_mem hmem
  have hcond : (!((cits.map (fun c => c.chunk_id)).filter
      (fun id => !(fm.map (fun m => some m.chunk_id)).contains id)).isEmpty) = true := by
    cases hl : ((cits.map (fun c => c.chunk_id)).filter
        (fun id => !(fm.map (fun m => some m.chunk_id)).contains id)).isEmpty
    · rfl
    · exact absurd (List.isEmpty_iff.mp hl) hne
  simp only [citeTerm]
  rw [if_pos hcond]

/-- All-valid citations avoid the penalty branch: the term is `0` or `1`. -/
theorem citeTerm_of_valid (cits : List Citation) (fm : List RagRow)
    (h : ∀ c ∈ cits, c.chunk_id ∈ fm.map (fun m => some m.chunk_id)) :
    0 ≤ citeTerm cits fm ∧ citeTerm cits fm ≤ 1 := by
  have hfil : (cits.map (fun c => c.chunk_id)).filter
      (fun id => !(fm.map (fun m => some m.chunk_id)).contains id) = [] := by
    rw [List.filter_eq_nil_iff]
    intro id hid
    obtain ⟨c, hc, rfl⟩ := List.mem_map.mp hid
    simpa using h c hc
  simp only [citeTerm]
  rw [hfil]
  simp only [List.isEmpty_nil, Bool.not_true, Bool.false_eq_true, if_false]
  split <;> omega

end ErpChat

namespace ErpChat

/-! ## C5 — invalid-citation penalty -/

/-- C5: among two otherwise-identical candidates, one citing a chunk id
absent from the filtered set and the other citing only present ids, the
invalid citer scores at least 5 points lower and loses the duel from
either slot. -/
theorem C5_invalid_citation_penalty (o : CandAnswer) (ans : String)
    (h : o.answer = some ans) (citsBad citsGood : List Citation)
    (fm : List RagRow) (st q : String)
    (hbad : ∃ c ∈ citsBad, c.chunk_id ∉ fm.map (fun m => some m.chunk_id))
    (hgood : ∀ c ∈ citsGood, c.chunk_id ∈ fm.map (fun m => some m.chunk_id)) :
    scoreAnswer (some { o with citations := citsBad }) fm st q + 5 ≤
      scoreAnswer (some { o with citations := citsGood }) fm st q ∧
    (pickWinner (some { o with citations := citsBad })
        (some { o with citations := citsGood })
        (scoreAnswer (some { o with citations := citsBad }) fm st q)
        (scoreAnswer (some { o with citations := citsGood }) fm st q)).version =
      PromptVersion.v2 ∧
    (pickWinner (some { o with citations := citsGood })
        (some { o with citations := citsBad })
        (scoreAnswer (some { o with citations := citsGood }) fm st q)
        (scoreAnswer (some { o with citations := citsBad }) fm st q)).version =
      PromptVersion.v1 := by
  have e1 := scoreAnswer_citeTerm_eq { o with citations := citsBad } ans h fm st q
  have e2 := scoreAnswer_citeTerm_eq { o with citations := citsGood } ans h fm st q
  dsimp only at e1 e2
  rw [citeTerm_of_invalid citsBad fm hbad] at e1
  have hg := citeTerm_of_valid citsGood fm hgood
  have hle : scoreAnswer (some { o with citations := citsBad }) fm st q + 5 ≤
      scoreAnswer (some { o with citations := citsGood }) fm st q := by
    rw [e1, e2]
    omega
  refine ⟨hle, ?_, ?_⟩
  · unfold pickWinner
    rw [if_pos (by omega)]
  · unfold pickWinner
    rw [if_neg (by omega)]

/-- Witness for `C5_invalid_citation_penalty` at a concrete pair. -/
theorem C5_invalid_citation_penalty_witness :
    scoreAnswer (some { exCand1 with citations := [Citation.mk (some 99) none] })
        [exRowA] "" "" + 5 ≤
      scoreAnswer (some { exCand1 with citations := [Citation.mk (some 1) (some "T1")] })
        [exRowA] "" "" :=
  (C5_invalid_citation_penalty exCand1 "Yes — option A" rfl
    [Citation.mk (some 99) none] [Citation.mk (some 1) (some "T1")]
    [exRowA] "" "" (by decide) (by decide)).1

/-! ## C6 — false-negative penalty -/

/-- C6: when the question carries a direct-match signal found verbatim in
the evidence text, a candidate whose answer text denies existence scores
at least 10 points below an otherwise-identical affirmative candidate. -/
theorem C6_false_negative_penalty (o : CandAnswer) (ansNeg ansAff : String)
    (fm : List RagRow) (st q : String)
    (hsig : anySignal q st = true)
    (hneg : saysNoOf ansNeg = true) (haff : saysNoOf ansAff = false) :
    scoreAnswer (some { o with answer := some ansNeg }) fm st q + 10 ≤
      scoreAnswer (some { o with answer := some ansAff }) fm st q := by
  have e1 := scoreAnswer_citeTerm_eq { o with answer := some ansNeg } ansNeg rfl fm st q
  have e2 := scoreAnswer_citeTerm_eq { o with answer := some ansAff } ansAff rfl fm st q
  dsimp only at e1 e2
  rw [hsig, hneg] at e1
  rw [hsig, haff] at e2
  simp only [Bool.and_true, Bool.not_true, Bool.not_false, if_true, if_false,
    Bool.false_eq_true, Bool.true_eq_false] at e1 e2
  rw [e1, e2]
  omega

/-- Witness for `C6_false_negative_penalty`: question `do we have
PE-1234?`, evidence `Name: PE-1234`, a denying and an affirming answer. -/
theorem C6_false_negative_penalty_witness :
    scoreAnswer (some { exCand1 with answer := some "No — nothing found" })
        [] "Name: PE-1234" "do we have PE-1234?" + 10 ≤
      scoreAnswer (some { exCand1 with answer := some "Yes — found it" })
        [] "Name: PE-1234" "do we have PE-1234?" :=
  C6_false_negative_penalty exCand1 "No — nothing found" "Yes — found it"
    [] "Name: PE-1234" "do we have PE-1234?" (by decide) (by decide) (by decide)

/-! ## C10 — malformed candidates -/

/-- C10: a null candidate or one whose answer is not a string scores
exactly `-999`; a candidate with a string answer scores at least `-18`;
hence the well-formed candidate wins the duel from either slot. -/
theorem C10_malformed_vs_wellformed (fm : List RagRow) (st q : String)
    (o : CandAnswer) (ans : String) (o2 : Option CandAnswer)
    (h1 : o.answer = some ans)
    (h2 : o2 = none ∨ ∃ m, o2 = some m ∧ m.answer = none) :
    scoreAnswer o2 fm st q = -999 ∧
    -18 ≤ scoreAnswer (some o) fm st q ∧
    (pickWinner (some o) o2 (scoreAnswer (some o) fm st q)
        (scoreAnswer o2 fm st q)).version = PromptVersion.v1 ∧
    (pickWinner o2 (some o) (scoreAnswer o2 fm st q)
        (scoreAnswer (some o) fm st q)).version = PromptVersion.v2 := by
  have hmal : scoreAnswer o2 fm st q = -999 := by
    rcases h2 with rfl | ⟨m, rfl, hm⟩
    · rfl
    · simp [scoreAnswer, hm]
  have hbound : -18 ≤ scoreAnswer (some o) fm st q := by
    rw [scoreAnswer_citeTerm_eq o ans h1 fm st q]
    have hc : -5 ≤ citeTerm o.citations fm ∧ citeTerm o.citations fm ≤ 1 := by
      unfold citeTerm
      dsimp only
      split
      · omega
      · split <;> omega
    split_ifs <;> omega
  refine ⟨hmal, hbound, ?_, ?_⟩
  · unfold pickWinner
    rw [hmal, if_neg (by omega)]
  · unfold pickWinner
    rw [hmal, if_pos (by omega)]

/-- Witness for `C10_malformed_vs_wellformed` at a concrete pair. -/
theorem C10_malformed_vs_wellformed_witness :
    scoreAnswer none [] "" "" = -999 ∧
    -18 ≤ scoreAnswer (some exCand1) [] "" "" ∧
    (pickWinner (some exCand1) none (scoreAnswer (some exCand1) [] "" "")
        (scoreAnswer none [] "" "")).version = PromptVersion.v1 ∧
    (pickWinner none (some exCand1) (scoreAnswer none [] "" "")
        (scoreAnswer (some exCand1) [] "" "")).version = PromptVersion.v2 :=
  C10_malformed_vs_wellformed [] "" "" exCand1 "Yes — option A" none rfl (Or.inl rfl)

end ErpChat

namespace ErpChat

/-! ## C7 — lexical-first hybrid retrieval -/

/-- C7: for an identifier-like query, when the per-token lexical loop has
accumulated at least `min 3 limit` distinct chunk ids, `searchHybrid`
returns exactly those deduplicated lexical rows truncated to `limit`, and
the result does not depend on the vector (or semantic) oracle at all;
otherwise it returns the lexical rows merged with the vector results,
deduplicated and truncated to `limit`. -/
theorem C7_hybrid_lexical (lex vecA vecB semA semB : String → Nat → List RagRow)
    (q : String) (limit : Nat) (hid : looksLikeIdentifier q = true) :
    ((dedupInsertAll [] (accumLexical lex limit (extractIdentifierTokens q) [])).length ≥
        min 3 limit →
      searchHybrid ⟨lex, vecA, semA⟩ q limit =
        ((dedupInsertAll [] (accumLexical lex limit (extractIdentifierTokens q) [])).map
          Prod.snd).take limit ∧
      searchHybrid ⟨lex, vecA, semA⟩ q limit = searchHybrid ⟨lex, vecB, semB⟩ q limit) ∧
    ((dedupInsertAll [] (accumLexical lex limit (extractIdentifierTokens q) [])).length <
        min 3 limit →
      searchHybrid ⟨lex, vecA, semA⟩ q limit =
        ((dedupInsertAll
            (dedupInsertAll [] (accumLexical lex limit (extractIdentifierTokens q) []))
            (vecA q limit)).map Prod.snd).take limit) := by
  constructor
  · intro hge
    constructor
    · simp only [searchHybrid, hid, if_true]
      rw [if_pos hge]
    · simp only [searchHybrid, hid, if_true]
      rw [if_pos hge, if_pos hge]
  · intro hlt
    simp only [searchHybrid, hid, if_true]
    rw [if_neg (by omega)]

/-- Witness for `C7_hybrid_lexical`: the query `code 1234` is
identifier-like, the lexical oracle returns three distinct rows, and the
result ignores two different vector/semantic oracles. -/
theorem C7_hybrid_lexical_witness :
    searchHybrid ⟨exLex, fun _ _ => [], fun _ _ => []⟩ "code 1234" 10 =
      ((dedupInsertAll []
          (accumLexical exLex 10 (extractIdentifierTokens "code 1234") [])).map
        Prod.snd).take 10 ∧
    searchHybrid ⟨exLex, fun _ _ => [], fun _ _ => []⟩ "code 1234" 10 =
      searchHybrid ⟨exLex, fun _ _ => [exRowB], fun _ _ => [exRowC]⟩ "code 1234" 10 :=
  (C7_hybrid_lexical exLex (fun _ _ => []) (fun _ _ => [exRowB])
    (fun _ _ => []) (fun _ _ => [exRowC]) "code 1234" 10 (by decide)).1 (by decide)

end ErpChat
